import Mathlib

/-!
Shallow embedding of the diagnostic-tracing core of `zenrpc-middleware`
(the `sqlQueryLogger` event buffer, the `WithTiming` duration composition
and the `WithSQLLogger` interceptor), translated from the Go source.

Conventions of the embedding:
* Go `uint64` is `Nat` reduced `% 2 ^ 64` where the counter is incremented;
* Go `int64` values (durations in milliseconds / nanoseconds) are `Int`;
* the Go map `map[uint64][]sqlQuery` is a total function
  `Nat → Option (List SqlQuery)` (`none` = key absent), which matches the
  `value, ok := m[k]` / `delete(m, k)` semantics pointwise;
* Go strings are `List Char` where their character structure matters
  (the `>`-separated trace-group path);
* a Go panic propagating out of the inner invocation is the `Except.error`
  branch of the handler's result.
-/

namespace ZenrpcMiddleware

/-- One captured sub-operation, translated from the Go struct `sqlQuery`
(`Query string; Group string; Duration Duration`), with the duration kept
as its `int64` nanosecond count. -/
structure SqlQuery where
  query : List Char
  group : List Char
  durationNs : Int
  deriving DecidableEq, Repr

/-- The buffer of `sqlQueryLogger`: the Go map `map[uint64][]sqlQuery`. -/
def BufMap : Type := Nat → Option (List SqlQuery)

/-- `make(map[uint64][]sqlQuery)` in `NewSqlQueryLogger`. -/
def emptyBuf : BufMap := fun _ => none

/-- `Push`: `ql.data[debugID] = []sqlQuery{}`. -/
def bufPush (id : Nat) (m : BufMap) : BufMap :=
  fun k => if k = id then some [] else m k

/-- `Store`: append if the key is present, otherwise skip
(`if _, ok := ql.data[debugID]; !ok { return }`). -/
def bufStore (id : Nat) (e : SqlQuery) (m : BufMap) : BufMap :=
  match m id with
  | none => m
  | some l => fun k => if k = id then some (l ++ [e]) else m k

/-- `Pop`: `qq, ok := ql.data[debugID]; if ok { delete(ql.data, debugID) };
return qq` — the zero value of the absent case is the empty slice. -/
def bufPop (id : Nat) (m : BufMap) : List SqlQuery × BufMap :=
  match m id with
  | some qq => (qq, fun k => if k = id then none else m k)
  | none => ([], m)

/-- A single buffer operation, for reasoning about arbitrary interleavings
of `Push`/`Store`/`Pop` across sessions. -/
inductive BufOp where
  | push (id : Nat)
  | store (id : Nat) (e : SqlQuery)
  | pop (id : Nat)
  deriving DecidableEq, Repr

/-- Effect of one operation on the buffer (the `Pop` return value is
projected away here). -/
def applyOp (m : BufMap) : BufOp → BufMap
  | BufOp.push id => bufPush id m
  | BufOp.store id e => bufStore id e m
  | BufOp.pop id => (bufPop id m).2

/-- Run a sequence of buffer operations left to right. -/
def runOps (m : BufMap) : List BufOp → BufMap
  | [] => m
  | o :: ops => runOps (applyOp m o) ops

/-- The events a trace stores for session `id`, in call order. -/
def storesFor (id : Nat) (ops : List BufOp) : List SqlQuery :=
  ops.filterMap fun o =>
    match o with
    | BufOp.store i e => if i = id then some e else none
    | _ => none

section BufferLemmas

theorem runOps_cons (m : BufMap) (o : BufOp) (ops : List BufOp) :
    runOps m (o :: ops) = runOps (applyOp m o) ops := rfl

theorem bufStore_absent {m : BufMap} {id : Nat} (e : SqlQuery)
    (h : m id = none) : bufStore id e m = m := by
  unfold bufStore
  rw [h]

theorem bufPop_absent {m : BufMap} {id : Nat} (h : m id = none) :
    bufPop id m = ([], m) := by
  unfold bufPop
  rw [h]

theorem bufPop_snd_self (id : Nat) (m : BufMap) :
    (bufPop id m).2 id = none := by
  unfold bufPop
  cases h : m id with
  | none => simpa using h
  | some l => simp

/-- An id that is never pushed stays absent across any operation run. -/
theorem runOps_absent {id : Nat} :
    ∀ (ops : List BufOp) (m : BufMap), m id = none →
      (∀ o ∈ ops, o ≠ BufOp.push id) → (runOps m ops) id = none := by
  intro ops
  induction ops with
  | nil => intro m hm _; exact hm
  | cons o ops ih =>
    intro m hm hops
    rw [runOps_cons]
    refine ih (applyOp m o) ?_ fun o' ho' => hops o' (List.mem_cons_of_mem _ ho')
    have hop := hops o (List.mem_cons_self _ _)
    cases o with
    | push j =>
      have hj : j ≠ id := fun h => hop (by rw [h])
      simp only [applyOp, bufPush]
      rw [if_neg (fun h => hj h.symm)]
      exact hm
    | store j e =>
      simp only [applyOp, bufStore]
      cases hmj : m j with
      | none => exact hm
      | some l =>
        by_cases hij : id = j
        · rw [hij] at hm; rw [hm] at hmj; cases hmj
        · simp only [if_neg hij]; exact hm
    | pop j =>
      simp only [applyOp, bufPop]
      cases hmj : m j with
      | none => exact hm
      | some l =>
        by_cases hij : id = j
        · simp only [if_pos hij]
        · simp only [if_neg hij]; exact hm

/-- A live session accumulates exactly the events stored for it, in call
order, as long as it is neither re-pushed nor popped. -/
theorem runOps_lookup_some {id : Nat} :
    ∀ (ops : List BufOp) (m : BufMap) (l : List SqlQuery), m id = some l →
      (∀ o ∈ ops, o ≠ BufOp.push id ∧ o ≠ BufOp.pop id) →
      (runOps m ops) id = some (l ++ storesFor id ops) := by
  intro ops
  induction ops with
  | nil => intro m l hm _; simpa [storesFor] using hm
  | cons o ops ih =>
    intro m l hm hops
    have hop := hops o (List.mem_cons_self _ _)
    have hrest : ∀ o' ∈ ops, o' ≠ BufOp.push id ∧ o' ≠ BufOp.pop id :=
      fun o' ho' => hops o' (List.mem_cons_of_mem _ ho')
    rw [runOps_cons]
    cases o with
    | push j =>
      have hj : j ≠ id := fun h => hop.1 (by rw [h])
      have hm' : (applyOp m (BufOp.push j)) id = some l := by
        simp only [applyOp, bufPush]
        rw [if_neg (fun h => hj h.symm)]
        exact hm
      rw [ih _ _ hm' hrest]
      simp [storesFor, hj.symm]
    | store j e =>
      by_cases hji : j = id
      · subst hji
        have hm' : (applyOp m (BufOp.store j e)) j = some (l ++ [e]) := by
          simp only [applyOp, bufStore]
          rw [hm]
          simp
        rw [ih _ _ hm' hrest]
        simp [storesFor]
      · have hm' : (applyOp m (BufOp.store j e)) id = some l := by
          simp only [applyOp, bufStore]
          cases hmj : m j with
          | none => exact hm
          | some lj =>
            simp only [if_neg (fun h : id = j => hji h.symm)]
            exact hm
        rw [ih _ _ hm' hrest]
        simp [storesFor, hji]
    | pop j =>
      have hj : j ≠ id := fun h => hop.2 (by rw [h])
      have hm' : (applyOp m (BufOp.pop j)) id = some l := by
        simp only [applyOp, bufPop]
        cases hmj : m j with
        | none => exact hm
        | some lj =>
          simp only [if_neg (fun h : id = j => hj h.symm)]
          exact hm
      rw [ih _ _ hm' hrest]
      simp [storesFor]

/-- Every event sitting in the buffer under key `k` after a run either was
stored by a `store k` operation of the run or was already there. -/
theorem runOps_mem_of_lookup {k : Nat} :
    ∀ (ops : List BufOp) (m : BufMap) (l : List SqlQuery) (x : SqlQuery),
      (runOps m ops) k = some l → x ∈ l →
      BufOp.store k x ∈ ops ∨ ∃ l0, m k = some l0 ∧ x ∈ l0 := by
  intro ops
  induction ops with
  | nil =>
    intro m l x hl hx
    exact Or.inr ⟨l, hl, hx⟩
  | cons o ops ih =>
    intro m l x hl hx
    rw [runOps_cons] at hl
    rcases ih _ _ _ hl hx with hin | ⟨l0, hl0, hx0⟩
    · exact Or.inl (List.mem_cons_of_mem _ hin)
    · cases o with
      | push j =>
        simp only [applyOp, bufPush] at hl0
        by_cases hkj : k = j
        · rw [if_pos hkj] at hl0
          cases hl0
          cases hx0
        · rw [if_neg hkj] at hl0
          exact Or.inr ⟨l0, hl0, hx0⟩
      | store j e =>
        simp only [applyOp, bufStore] at hl0
        cases hmj : m j with
        | none =>
          rw [hmj] at hl0
          exact Or.inr ⟨l0, hl0, hx0⟩
        | some lj =>
          rw [hmj] at hl0
          dsimp only at hl0
          by_cases hkj : k = j
          · rw [if_pos hkj] at hl0
            cases hl0
            rcases List.mem_append.1 hx0 with hmem | hmem
            · exact Or.inr ⟨lj, by rw [hkj, hmj], hmem⟩
            · have hxe : x = e := List.mem_singleton.1 hmem
              subst hkj; subst hxe
              exact Or.inl (List.mem_cons_self _ _)
          · rw [if_neg hkj] at hl0
            exact Or.inr ⟨l0, hl0, hx0⟩
      | pop j =>
        simp only [applyOp, bufPop] at hl0
        cases hmj : m j with
        | none =>
          rw [hmj] at hl0
          exact Or.inr ⟨l0, hl0, hx0⟩
        | some lj =>
          rw [hmj] at hl0
          dsimp only at hl0
          by_cases hkj : k = j
          · rw [if_pos hkj] at hl0
            cases hl0
          · rw [if_neg hkj] at hl0
            exact Or.inr ⟨l0, hl0, hx0⟩

end BufferLemmas

/-! ### The correlation allocator (`sqlQueryLogger.nextID`, a Go `uint64`) -/

/-- The modulus of Go's `uint64` arithmetic. -/
def u64Mod : Nat := 2 ^ 64

/-- State of one `sqlQueryLogger` instance: the `nextID uint64` counter and
the `data` map. -/
structure QLState where
  nextID : Nat
  data : BufMap

/-- `NewSqlQueryLogger`: zero counter, empty map. -/
def newSqlQueryLogger : QLState :=
  { nextID := 0, data := emptyBuf }

/-- `NextID`: `atomic.AddUint64(&ql.nextID, 1)` — increments the `uint64`
counter (wrapping modulo `2 ^ 64`) and returns the new value. -/
def qlNextID (st : QLState) : Nat × QLState :=
  let id := (st.nextID + 1) % u64Mod
  (id, { st with nextID := id })

/-- Logger state after `k` successive `NextID` calls on a fresh logger. -/
def callsState : Nat → QLState
  | 0 => newSqlQueryLogger
  | k + 1 => (qlNextID (callsState k)).2

/-- The value returned by the `(k+1)`-st `NextID` call on a fresh logger. -/
def returnedID (k : Nat) : Nat := (qlNextID (callsState k)).1

theorem callsState_nextID (k : Nat) : (callsState k).nextID = k % u64Mod := by
  induction k with
  | zero => simp [callsState, newSqlQueryLogger, u64Mod]
  | succ k ih =>
    show (qlNextID (callsState k)).2.nextID = (k + 1) % u64Mod
    simp only [qlNextID, ih, Nat.add_mod_left]
    rw [Nat.mod_add_mod]

theorem returnedID_eq (k : Nat) : returnedID k = (k + 1) % u64Mod := by
  simp only [returnedID, qlNextID, callsState_nextID]
  rw [Nat.mod_add_mod]

/-! ### The trace-group path (`NewSqlGroupContext` / `AfterQuery`) -/

/-- The group separator. -/
def sepChar : Char := '>'

/-- `NewSqlGroupContext` accumulation:
`if groups != "" { groups += ">" }; groups += group`. -/
def pushGroup (groups g : List Char) : List Char :=
  if groups = [] then g else groups ++ sepChar :: g

/-- The accumulated group string after nesting the names `gs` in order,
starting from a context with no group (the empty string). -/
def groupsAfter (gs : List (List Char)) : List Char :=
  gs.foldl pushGroup []

/-- `strings.Trim(s, ">")` — strips leading and trailing `>` runs. -/
def trimSep (s : List Char) : List Char :=
  ((s.dropWhile (· = sepChar)).reverse.dropWhile (· = sepChar)).reverse

/-- The `Group` field `AfterQuery` records on a captured event:
`strings.Trim(SqlGroupFromContext(ctx), ">")`. -/
def recordedGroup (gs : List (List Char)) : List Char :=
  trimSep (groupsAfter gs)

/-- Modelled from the spec: the group names joined with the `>` separator
in nesting order (`g1>g2>...>gk`), for comparison with `groupsAfter`. -/
def joinSep : List (List Char) → List Char
  | [] => []
  | [g] => g
  | g :: gs => g ++ sepChar :: joinSep gs

/-- Modelled from the spec: the joined path trimmed of leading and trailing
separators at read time. -/
def specGroupPath (gs : List (List Char)) : List Char :=
  trimSep (joinSep gs)

section GroupLemmas

/-- The `>`-prefixed flattening of a list of names. -/
def tailJoin (gs : List (List Char)) : List Char :=
  (gs.map fun g => sepChar :: g).flatten

theorem tailJoin_nil : tailJoin [] = [] := rfl

theorem tailJoin_cons (g : List Char) (gs : List (List Char)) :
    tailJoin (g :: gs) = sepChar :: (g ++ tailJoin gs) := by
  simp [tailJoin]

theorem joinSep_cons (g : List Char) (gs : List (List Char)) :
    joinSep (g :: gs) = g ++ tailJoin gs := by
  induction gs generalizing g with
  | nil => simp [joinSep, tailJoin]
  | cons g' gs ih =>
    have hstep : joinSep (g :: g' :: gs) = g ++ sepChar :: joinSep (g' :: gs) := rfl
    rw [hstep, ih, tailJoin_cons]

theorem foldl_pushGroup_ne_nil (gs : List (List Char)) :
    ∀ acc : List Char, acc ≠ [] →
      gs.foldl pushGroup acc = acc ++ tailJoin gs := by
  induction gs with
  | nil => intro acc _; simp [tailJoin]
  | cons g gs ih =>
    intro acc hacc
    rw [List.foldl_cons]
    have hpush : pushGroup acc g = acc ++ sepChar :: g := by
      simp [pushGroup, hacc]
    rw [hpush, ih _ (by simp), tailJoin_cons]
    simp

theorem trimSep_sep_cons (s : List Char) :
    trimSep (sepChar :: s) = trimSep s := by
  simp [trimSep, List.dropWhile]

end GroupLemmas

/-! ### Response extensions and the `WithTiming` composition -/

/-- A value stored in the response `Extensions` map. The middleware writes
`int64` values (`DurationLocal`, `DurationRemote`, `DurationDiff`,
`DurationSQL`) and one `[]sqlQuery` value (`SQL`). -/
inductive ExtValue where
  | int (n : Int)
  | sql (qq : List SqlQuery)
  deriving DecidableEq

/-- The `Extensions map[string]interface{}` of a response; `none` = key
absent. (The Go `nil`-map / empty-map distinction is unobservable in the
extension contents and is not modelled.) -/
def Ext : Type := String → Option ExtValue

/-- An extensions map with no keys. -/
def emptyExt : Ext := fun _ => none

/-- `ext[k] = v`. -/
def extSet (k : String) (v : ExtValue) (ext : Ext) : Ext :=
  fun k' => if k' = k then some v else ext k'

/-- A JSON-RPC response as far as this middleware observes it: its
extensions map. -/
structure Response where
  extensions : Ext

/-- The timing-composition body of `WithTiming` (after its gate), given the
measured wall time `wallMs = int64(time.Since(now) / 1e6)` and the inner
response's extensions. The Go type assertions `remote.(int64)` and
`diff.(int64)` panic on a non-integer value; that is the `none` result. -/
def withTimingCompose (wallMs : Int) (ext : Ext) : Option Ext := do
  let total1 ← match ext "DurationRemote" with
    | none => pure wallMs
    | some (ExtValue.int r) => pure (wallMs - r)
    | some _ => none
  let total2 ← match ext "DurationDiff" with
    | none => pure total1
    | some (ExtValue.int d) => pure (total1 - d)
    | some _ => none
  pure (if ext "DurationLocal" = some (ExtValue.int (-1)) then ext
        else extSet "DurationLocal" (ExtValue.int total2) ext)

/-- The key `k` is either absent or holds an `int64`. -/
def intOrAbsent (ext : Ext) (k : String) : Prop :=
  ext k = none ∨ ∃ n : Int, ext k = some (ExtValue.int n)

/-- The `int64` at key `k`, or `d` when the key is absent or non-integer. -/
def extIntD (ext : Ext) (k : String) (d : Int) : Int :=
  match ext k with
  | some (ExtValue.int n) => n
  | _ => d

theorem extSet_get (k : String) (v : ExtValue) (ext : Ext) :
    extSet k v ext k = some v := by
  simp [extSet]

theorem extSet_get_ne (k k' : String) (v : ExtValue) (ext : Ext)
    (h : k' ≠ k) : extSet k v ext k' = ext k' := by
  simp [extSet, h]

/-! ### The `WithSQLLogger` interceptor -/

/-- The slice of the call context this interceptor reads and writes: the
debug (session) id, `0` being `emptyDebugID` ("no active session"). -/
structure Ctx where
  debugID : Nat

/-- `Store` applied to each produced event in order. -/
def storeEvents (id : Nat) (es : List SqlQuery) (m : BufMap) : BufMap :=
  es.foldl (fun acc e => bufStore id e acc) m

/-- What the `AfterQuery` hook does with the events the inner invocation
produces: each event is stored under the context's debug id, unless
`DebugIDFromContext(ctx) == emptyDebugID`, in which case `AfterQuery`
returns before storing. -/
def runProducer (ctx : Ctx) (es : List SqlQuery) (m : BufMap) : BufMap :=
  if ctx.debugID = 0 then m else storeEvents ctx.debugID es m

/-- `totalSQL`: the sum of the captured events' durations (nanoseconds). -/
def sumDurations (qq : List SqlQuery) : Int :=
  qq.foldl (fun acc q => acc + q.durationNs) 0

/-- The denial path of `WithSQLLogger`: `return h(ctx, method, params)` with
the untouched context. The inner invocation is modelled as the list of
events its queries produce plus its outcome — `Except.error` being a panic
unwinding out of `h`. -/
def runPlain {φ : Type} (h : Ctx → List SqlQuery × Except φ Response)
    (ctx : Ctx) (st : QLState) : QLState × Except φ Response :=
  let (es, r) := h ctx
  ({ st with data := runProducer ctx es st.data }, r)

/-- The traced path of `WithSQLLogger` (lines `debugID := ql.NextID()`
through `return resp`): allocate an id, publish it in the context, `Push`,
run the inner invocation, then — only on normal return, there being no
`defer` in the source — `Pop` and attach `SQL` (when `logQuery`) and
`DurationSQL = int64(totalSQL / 1e6)` when at least one event was
captured. A panic propagates as-is with no `Pop`. -/
def runTraced {φ : Type} (logQuery : Bool)
    (h : Ctx → List SqlQuery × Except φ Response)
    (ctx : Ctx) (st : QLState) : QLState × Except φ Response :=
  let (debugID, st1) := qlNextID st
  let ctx1 : Ctx := { ctx with debugID := debugID }
  let st2 : QLState := { st1 with data := bufPush debugID st1.data }
  let (es, r) := h ctx1
  let st3 : QLState := { st2 with data := runProducer ctx1 es st2.data }
  match r with
  | Except.error f => (st3, Except.error f)
  | Except.ok resp =>
    let (qq, data4) := bufPop debugID st3.data
    let ext2 :=
      if 0 < qq.length then
        extSet "DurationSQL" (ExtValue.int (Int.tdiv (sumDurations qq) 1000000))
          (if logQuery then extSet "SQL" (ExtValue.sql qq) resp.extensions
           else resp.extensions)
      else resp.extensions
    ({ st3 with data := data4 }, Except.ok { extensions := ext2 })

/-- `WithSQLLogger`'s per-call body. `req?` is `RequestFromContext` (`none`
covers `!ok || req == nil`; `req.Clone` of a non-nil request is never nil,
so the `reqClone == nil` re-checks cannot fire and the predicates are
evaluated on the request's data). `logQuery` starts `true` and is cleared
when `allowSqlDebugFunc` refuses. -/
def withSQLLogger {R φ : Type} (isDevel : Bool)
    (allowDebugFunc allowSqlDebugFunc : R → Bool) (req? : Option R)
    (h : Ctx → List SqlQuery × Except φ Response) (ctx : Ctx)
    (st : QLState) : QLState × Except φ Response :=
  match isDevel, req? with
  | false, none => runPlain h ctx st
  | false, some req =>
    if allowDebugFunc req then runTraced (allowSqlDebugFunc req) h ctx st
    else runPlain h ctx st
  | true, _ => runTraced true h ctx st

/-! ### Claim theorems -/

/-- Claim C3: a popped session id is dead — after `Pop(id)`, any later
`Store(id, e)` (across further operations that never re-push `id`) leaves
the buffer unchanged, a second `Pop(id)` returns the empty sequence, and a
`Store(id, e)` issued before the matching `Push(id)` (a run from the empty
buffer with no `Push(id)`) never affects buffer contents. -/
theorem c3_popped_session_is_dead (m : BufMap) (id : Nat) (e : SqlQuery)
    (ops pre : List BufOp)
    (hops : ∀ o ∈ ops, o ≠ BufOp.push id)
    (hpre : ∀ o ∈ pre, o ≠ BufOp.push id) :
    bufStore id e (runOps (bufPop id m).2 ops) = runOps (bufPop id m).2 ops
  ∧ (bufPop id (runOps (bufPop id m).2 ops)).1 = []
  ∧ bufStore id e (runOps emptyBuf pre) = runOps emptyBuf pre := by
  have h1 : (runOps (bufPop id m).2 ops) id = none :=
    runOps_absent ops _ (bufPop_snd_self id m) hops
  have h2 : (runOps emptyBuf pre) id = none :=
    runOps_absent pre _ rfl hpre
  exact ⟨bufStore_absent e h1, by rw [bufPop_absent h1], bufStore_absent e h2⟩

/-- Witness for C3 at a concrete buffer, id and operation lists. -/
theorem c3_popped_session_is_dead_witness :
    (∀ o ∈ [BufOp.push 2], o ≠ BufOp.push 1)
  ∧ (∀ o ∈ [BufOp.store 1 (SqlQuery.mk ['a'] [] 5)], o ≠ BufOp.push 1)
  ∧ (bufStore 1 (SqlQuery.mk ['b'] [] 7)
        (runOps (bufPop 1 (bufPush 1 emptyBuf)).2 [BufOp.push 2])
      = runOps (bufPop 1 (bufPush 1 emptyBuf)).2 [BufOp.push 2]
    ∧ (bufPop 1 (runOps (bufPop 1 (bufPush 1 emptyBuf)).2 [BufOp.push 2])).1 = []
    ∧ bufStore 1 (SqlQuery.mk ['b'] [] 7)
        (runOps emptyBuf [BufOp.store 1 (SqlQuery.mk ['a'] [] 5)])
      = runOps emptyBuf [BufOp.store 1 (SqlQuery.mk ['a'] [] 5)]) :=
  ⟨by decide, by decide,
    c3_popped_session_is_dead (bufPush 1 emptyBuf) 1 (SqlQuery.mk ['b'] [] 7)
      [BufOp.push 2] [BufOp.store 1 (SqlQuery.mk ['a'] [] 5)]
      (by decide) (by decide)⟩

/-- Claim C4: per-session FIFO — after `Push(id)` and any operations that
neither re-push nor pop `id`, the first `Pop(id)` returns exactly the
events stored for `id`, in `Store`-call order; in particular
`Store(id, e1); Store(id, e2)` yields `Pop(id) = [e1, e2]`. -/
theorem c4_fifo_order (m : BufMap) (id : Nat) (ops : List BufOp)
    (hops : ∀ o ∈ ops, o ≠ BufOp.push id ∧ o ≠ BufOp.pop id) :
    (bufPop id (runOps (bufPush id m) ops)).1 = storesFor id ops := by
  have h0 : (bufPush id m) id = some [] := by simp [bufPush]
  have h1 := runOps_lookup_some ops (bufPush id m) [] h0 hops
  rw [List.nil_append] at h1
  simp [bufPop, h1]

/-- Witness for C4: `Push 1`, `Store 1 e1`, `Store 1 e2` (with an unrelated
`Store 2 e3` interleaved) followed by `Pop 1` returns `[e1, e2]`. -/
theorem c4_fifo_order_witness :
    (∀ o ∈ [BufOp.store 1 (SqlQuery.mk ['a'] [] 3),
            BufOp.store 2 (SqlQuery.mk ['c'] [] 9),
            BufOp.store 1 (SqlQuery.mk ['b'] [] 4)],
        o ≠ BufOp.push 1 ∧ o ≠ BufOp.pop 1)
  ∧ (bufPop 1 (runOps (bufPush 1 emptyBuf)
        [BufOp.store 1 (SqlQuery.mk ['a'] [] 3),
         BufOp.store 2 (SqlQuery.mk ['c'] [] 9),
         BufOp.store 1 (SqlQuery.mk ['b'] [] 4)])).1
      = [SqlQuery.mk ['a'] [] 3, SqlQuery.mk ['b'] [] 4] := by
  constructor
  · decide
  · rw [c4_fifo_order emptyBuf 1 _ (by decide)]
    decide

/-- Claim C5: isolation — in any interleaved run of `Push`/`Store`/`Pop`
operations from the empty buffer, an event stored only under id `A` never
appears in the sequence popped for a distinct id `B`. -/
theorem c5_isolation (ops : List BufOp) (A B : Nat) (e : SqlQuery)
    (hAB : A ≠ B) (hstored : BufOp.store A e ∈ ops)
    (hnotB : BufOp.store B e ∉ ops) :
    e ∉ (bufPop B (runOps emptyBuf ops)).1 := by
  intro hmem
  unfold bufPop at hmem
  cases hB : (runOps emptyBuf ops) B with
  | none =>
    rw [hB] at hmem
    simp at hmem
  | some l =>
    rw [hB] at hmem
    dsimp only at hmem
    rcases runOps_mem_of_lookup ops emptyBuf l e hB hmem with hin | ⟨l0, h0, _⟩
    · exact hnotB hin
    · exact Option.noConfusion h0

/-- Witness for C5: `Push 1; Push 2; Store 1 e` — `e` is not in `Pop 2`. -/
theorem c5_isolation_witness :
    (1 : Nat) ≠ 2
  ∧ BufOp.store 1 (SqlQuery.mk ['a'] [] 3)
      ∈ [BufOp.push 1, BufOp.push 2, BufOp.store 1 (SqlQuery.mk ['a'] [] 3)]
  ∧ BufOp.store 2 (SqlQuery.mk ['a'] [] 3)
      ∉ [BufOp.push 1, BufOp.push 2, BufOp.store 1 (SqlQuery.mk ['a'] [] 3)]
  ∧ SqlQuery.mk ['a'] [] 3
      ∉ (bufPop 2 (runOps emptyBuf
          [BufOp.push 1, BufOp.push 2,
           BufOp.store 1 (SqlQuery.mk ['a'] [] 3)])).1 :=
  ⟨by decide, by decide, by decide,
    c5_isolation [BufOp.push 1, BufOp.push 2,
        BufOp.store 1 (SqlQuery.mk ['a'] [] 3)] 1 2 (SqlQuery.mk ['a'] [] 3)
      (by decide) (by decide) (by decide)⟩

/-- Claim C7 counterexample: `NextID` is a wrapping `uint64` counter, so the
`2 ^ 64`-th call on a fresh logger returns `0`, falsifying "every call
returns a value strictly greater than all earlier ones and 0 is never
returned". -/
theorem c7_counterexample : returnedID (2 ^ 64 - 1) = 0 := by
  have h : (2 ^ 64 - 1) + 1 = 2 ^ 64 := by omega
  rw [returnedID_eq]
  simp only [u64Mod]
  rw [h, Nat.mod_self]

/-- Claim C7 (amended): within the first `2 ^ 64 - 1` calls the counter
never wraps: the first call returns `1`, later calls return strictly
increasing values, and `0` is never returned. -/
theorem c7_next_id_increasing (j k : Nat) (hjk : j < k) (hk : k + 1 < u64Mod) :
    returnedID 0 = 1 ∧ returnedID j < returnedID k ∧ returnedID k ≠ 0 := by
  have h0 : returnedID 0 = 1 := by
    rw [returnedID_eq]
    exact Nat.mod_eq_of_lt (by decide)
  have hj : returnedID j = j + 1 := by
    rw [returnedID_eq]
    exact Nat.mod_eq_of_lt (by omega)
  have hkk : returnedID k = k + 1 := by
    rw [returnedID_eq]
    exact Nat.mod_eq_of_lt hk
  exact ⟨h0, by omega, by omega⟩

/-- Witness for the amended C7 at the first two calls. -/
theorem c7_next_id_increasing_witness :
    (0 : Nat) < 1 ∧ 1 + 1 < u64Mod
  ∧ (returnedID 0 = 1 ∧ returnedID 0 < returnedID 1 ∧ returnedID 1 ≠ 0) :=
  ⟨by decide, by decide, c7_next_id_increasing 0 1 (by decide) (by decide)⟩

/-- Claim C8: for any sequence of nested group names, the `TraceGroup`
string recorded on a captured event (the accumulated
`NewSqlGroupContext` value, trimmed of `>` at read time by `AfterQuery`)
is the names joined with the `>` separator in nesting order, trimmed of
leading and trailing separators. -/
theorem c8_trace_group_path (gs : List (List Char)) :
    recordedGroup gs = specGroupPath gs := by
  unfold recordedGroup specGroupPath groupsAfter
  induction gs with
  | nil => rfl
  | cons g gs ih =>
    rw [List.foldl_cons]
    by_cases hg : g = []
    · subst hg
      have hpp : pushGroup [] [] = [] := by simp [pushGroup]
      rw [hpp, ih]
      cases gs with
      | nil => rfl
      | cons g' gs' =>
        have hjoin : joinSep ([] :: g' :: gs') = sepChar :: joinSep (g' :: gs') := rfl
        rw [hjoin, trimSep_sep_cons]
    · have hpg : pushGroup [] g = g := by simp [pushGroup, hg]
      rw [hpg, foldl_pushGroup_ne_nil gs g hg, ← joinSep_cons]

/-- Closed form of the `WithTiming` composition when `DurationRemote` and
`DurationDiff` are absent or integers (so neither type assertion panics). -/
theorem withTimingCompose_eq (wallMs : Int) (ext : Ext)
    (hr : intOrAbsent ext "DurationRemote")
    (hd : intOrAbsent ext "DurationDiff") :
    withTimingCompose wallMs ext =
      some (if ext "DurationLocal" = some (ExtValue.int (-1)) then ext
            else extSet "DurationLocal"
              (ExtValue.int (wallMs - extIntD ext "DurationRemote" 0
                - extIntD ext "DurationDiff" 0)) ext) := by
  rcases hr with hr | ⟨r, hr⟩ <;> rcases hd with hd | ⟨d, hd⟩ <;>
    simp [withTimingCompose, extIntD, hr, hd]

/-- Claim C2: with `DurationRemote` and `DurationDiff` absent-or-integer,
the composed `DurationLocal` equals the measured wall milliseconds minus
`DurationRemote` (if present) minus `DurationDiff` (if present); and a
response whose `DurationLocal` is pre-set to the sentinel `-1` keeps
`DurationLocal = -1` after composition. -/
theorem c2_duration_local_composition (wallMs : Int) (ext : Ext)
    (hr : intOrAbsent ext "DurationRemote")
    (hd : intOrAbsent ext "DurationDiff") :
    (ext "DurationLocal" ≠ some (ExtValue.int (-1)) →
      ∃ ext', withTimingCompose wallMs ext = some ext' ∧
        ext' "DurationLocal" = some (ExtValue.int
          (wallMs - extIntD ext "DurationRemote" 0
            - extIntD ext "DurationDiff" 0)))
  ∧ (ext "DurationLocal" = some (ExtValue.int (-1)) →
      ∃ ext', withTimingCompose wallMs ext = some ext' ∧
        ext' "DurationLocal" = some (ExtValue.int (-1))) := by
  constructor
  · intro hloc
    refine ⟨_, withTimingCompose_eq wallMs ext hr hd, ?_⟩
    rw [if_neg hloc, extSet_get]
  · intro hloc
    refine ⟨_, withTimingCompose_eq wallMs ext hr hd, ?_⟩
    rw [if_pos hloc]
    exact hloc

/-- Witness for C2: wall time 100 ms, `DurationRemote = 40`,
`DurationDiff = 10` composes `DurationLocal = 50`; and separately an
extensions map with `DurationLocal` pre-set to `-1` keeps it. -/
theorem c2_duration_local_composition_witness :
    (intOrAbsent
        (extSet "DurationDiff" (ExtValue.int 10)
          (extSet "DurationRemote" (ExtValue.int 40) emptyExt))
        "DurationRemote"
    ∧ intOrAbsent
        (extSet "DurationDiff" (ExtValue.int 10)
          (extSet "DurationRemote" (ExtValue.int 40) emptyExt))
        "DurationDiff")
  ∧ (∃ ext', withTimingCompose 100
        (extSet "DurationDiff" (ExtValue.int 10)
          (extSet "DurationRemote" (ExtValue.int 40) emptyExt)) = some ext' ∧
      ext' "DurationLocal" = some (ExtValue.int
        (100 - extIntD (extSet "DurationDiff" (ExtValue.int 10)
            (extSet "DurationRemote" (ExtValue.int 40) emptyExt))
            "DurationRemote" 0
          - extIntD (extSet "DurationDiff" (ExtValue.int 10)
            (extSet "DurationRemote" (ExtValue.int 40) emptyExt))
            "DurationDiff" 0)))
  ∧ (∃ ext', withTimingCompose 100
        (extSet "DurationLocal" (ExtValue.int (-1)) emptyExt) = some ext' ∧
      ext' "DurationLocal" = some (ExtValue.int (-1))) := by
  refine ⟨⟨?_, ?_⟩, ?_, ?_⟩
  · exact Or.inr ⟨40, by decide⟩
  · exact Or.inr ⟨10, by decide⟩
  · exact (c2_duration_local_composition 100
      (extSet "DurationDiff" (ExtValue.int 10)
        (extSet "DurationRemote" (ExtValue.int 40) emptyExt))
      (Or.inr ⟨40, by decide⟩) (Or.inr ⟨10, by decide⟩)).1 (by decide)
  · exact (c2_duration_local_composition 100
      (extSet "DurationLocal" (ExtValue.int (-1)) emptyExt)
      (Or.inl (by decide)) (Or.inl (by decide))).2 (by decide)

/-- Claim C9: when the reported `DurationRemote` plus `DurationDiff` exceed
the measured wall time, the `DurationLocal` written by the composition is
negative and is not clamped. -/
theorem c9_negative_duration_not_clamped (wallMs r d : Int) (ext : Ext)
    (hr : ext "DurationRemote" = some (ExtValue.int r))
    (hd : ext "DurationDiff" = some (ExtValue.int d))
    (hloc : ext "DurationLocal" ≠ some (ExtValue.int (-1)))
    (hgt : wallMs < r + d) :
    ∃ ext', withTimingCompose wallMs ext = some ext' ∧
      ext' "DurationLocal" = some (ExtValue.int (wallMs - r - d)) ∧
      wallMs - r - d < 0 := by
  refine ⟨_, withTimingCompose_eq wallMs ext (Or.inr ⟨r, hr⟩) (Or.inr ⟨d, hd⟩),
    ?_, by omega⟩
  rw [if_neg hloc, extSet_get, extIntD, extIntD, hr, hd]

/-- Witness for C9: wall time 30 ms with `DurationRemote = 40` and
`DurationDiff = 10` composes `DurationLocal = -20 < 0`. -/
theorem c9_negative_duration_not_clamped_witness :
    ((extSet "DurationDiff" (ExtValue.int 10)
        (extSet "DurationRemote" (ExtValue.int 40) emptyExt))
        "DurationRemote" = some (ExtValue.int 40)
    ∧ (extSet "DurationDiff" (ExtValue.int 10)
        (extSet "DurationRemote" (ExtValue.int 40) emptyExt))
        "DurationDiff" = some (ExtValue.int 10)
    ∧ (30 : Int) < 40 + 10)
  ∧ (∃ ext', withTimingCompose 30
        (extSet "DurationDiff" (ExtValue.int 10)
          (extSet "DurationRemote" (ExtValue.int 40) emptyExt)) = some ext' ∧
      ext' "DurationLocal" = some (ExtValue.int (30 - 40 - 10)) ∧
      (30 : Int) - 40 - 10 < 0) :=
  ⟨⟨by decide, by decide, by decide⟩,
    c9_negative_duration_not_clamped 30 40 10
      (extSet "DurationDiff" (ExtValue.int 10)
        (extSet "DurationRemote" (ExtValue.int 40) emptyExt))
      (by decide) (by decide) (by decide) (by decide)⟩

/-- Claim C1 (failing input): `WithSQLLogger` installs no `defer`, so when
the inner invocation panics after tracing allocated id `1` and pushed its
session, the fault propagates unaltered but `Pop` is never executed — the
buffer entry for id `1` is still present afterwards, contradicting
"cleanup executes on every exit path". -/
theorem c1_panic_skips_pop :
    (withSQLLogger (R := Unit) (φ := Unit) true (fun _ => true) (fun _ => true)
        none (fun _ => ([], Except.error ())) (Ctx.mk 0) newSqlQueryLogger).2
      = Except.error ()
  ∧ (withSQLLogger (R := Unit) (φ := Unit) true (fun _ => true) (fun _ => true)
        none (fun _ => ([], Except.error ())) (Ctx.mk 0) newSqlQueryLogger).1.data 1
      = some [] :=
  ⟨rfl, rfl⟩

/-- Claim C6: when tracing is denied (`isDevel = false` and there is either
no transport request or the debug predicate refuses it), the call is passed
straight through — the allocator counter and the buffer are unchanged and
the response (whose inner handler set no `SQL`/`DurationSQL`) carries
neither the `SQL` nor the `DurationSQL` extension. -/
theorem c6_gate_denial {R φ : Type} (allowDebugFunc allowSqlDebugFunc : R → Bool)
    (req? : Option R) (h : Ctx → List SqlQuery × Except φ Response)
    (ctx : Ctx) (st : QLState) (es : List SqlQuery) (resp : Response)
    (hdeny : req? = none ∨ ∃ req, req? = some req ∧ allowDebugFunc req = false)
    (hctx : ctx.debugID = 0)
    (hh : h ctx = (es, Except.ok resp))
    (hsql : resp.extensions "SQL" = none)
    (hdur : resp.extensions "DurationSQL" = none) :
    (withSQLLogger false allowDebugFunc allowSqlDebugFunc req? h ctx st).1.nextID
        = st.nextID
  ∧ (withSQLLogger false allowDebugFunc allowSqlDebugFunc req? h ctx st).1.data
        = st.data
  ∧ ∃ resp',
      (withSQLLogger false allowDebugFunc allowSqlDebugFunc req? h ctx st).2
          = Except.ok resp'
      ∧ resp'.extensions "SQL" = none
      ∧ resp'.extensions "DurationSQL" = none := by
  have hplain : runPlain h ctx st = (st, Except.ok resp) := by
    unfold runPlain
    rw [hh]
    dsimp only
    simp [runProducer, hctx]
  have hmain : withSQLLogger false allowDebugFunc allowSqlDebugFunc req? h ctx st
      = (st, Except.ok resp) := by
    rcases hdeny with hnone | ⟨req, hreq, hallow⟩
    · rw [hnone]
      exact hplain
    · rw [hreq]
      show (if allowDebugFunc req = true
            then runTraced (allowSqlDebugFunc req) h ctx st
            else runPlain h ctx st) = (st, Except.ok resp)
      rw [hallow]
      simpa using hplain
  rw [hmain]
  exact ⟨rfl, rfl, resp, rfl, hsql, hdur⟩

/-- Witness for C6 with a concrete refused request and a fresh logger. -/
theorem c6_gate_denial_witness :
    ((some () = (none : Option Unit)
        ∨ ∃ req, some () = some req ∧ (fun _ : Unit => false) req = false)
    ∧ (Ctx.mk 0).debugID = 0
    ∧ (fun _ : Ctx => (([] : List SqlQuery),
          Except.ok (ε := Unit) (Response.mk emptyExt))) (Ctx.mk 0)
        = ([], Except.ok (Response.mk emptyExt))
    ∧ (Response.mk emptyExt).extensions "SQL" = none
    ∧ (Response.mk emptyExt).extensions "DurationSQL" = none)
  ∧ ((withSQLLogger false (fun _ : Unit => false) (fun _ : Unit => false)
        (some ())
        (fun _ : Ctx => (([] : List SqlQuery),
          Except.ok (ε := Unit) (Response.mk emptyExt)))
        (Ctx.mk 0) newSqlQueryLogger).1.nextID = newSqlQueryLogger.nextID
    ∧ (withSQLLogger false (fun _ : Unit => false) (fun _ : Unit => false)
        (some ())
        (fun _ : Ctx => (([] : List SqlQuery),
          Except.ok (ε := Unit) (Response.mk emptyExt)))
        (Ctx.mk 0) newSqlQueryLogger).1.data = newSqlQueryLogger.data
    ∧ ∃ resp',
        (withSQLLogger false (fun _ : Unit => false) (fun _ : Unit => false)
          (some ())
          (fun _ : Ctx => (([] : List SqlQuery),
            Except.ok (ε := Unit) (Response.mk emptyExt)))
          (Ctx.mk 0) newSqlQueryLogger).2 = Except.ok resp'
        ∧ resp'.extensions "SQL" = none
        ∧ resp'.extensions "DurationSQL" = none) :=
  ⟨⟨Or.inr ⟨(), rfl, rfl⟩, rfl, rfl, rfl, rfl⟩,
    c6_gate_denial (fun _ : Unit => false) (fun _ : Unit => false) (some ())
      (fun _ : Ctx => (([] : List SqlQuery),
        Except.ok (ε := Unit) (Response.mk emptyExt)))
      (Ctx.mk 0) newSqlQueryLogger [] (Response.mk emptyExt)
      (Or.inr ⟨(), rfl, rfl⟩) rfl rfl rfl rfl⟩

/-- Claim C10: on the traced path, when the inner invocation stores no
events (so `Pop` returns the empty sequence), the returned response gets
neither the `SQL` nor the `DurationSQL` extension — both are attached only
when at least one event was captured. -/
theorem c10_empty_session_no_sql_fields {φ : Type} (logQuery : Bool)
    (h : Ctx → List SqlQuery × Except φ Response) (ctx : Ctx) (st : QLState)
    (resp : Response)
    (hh : ∀ c, h c = ([], Except.ok resp))
    (hsql : resp.extensions "SQL" = none)
    (hdur : resp.extensions "DurationSQL" = none) :
    ∃ resp', (runTraced logQuery h ctx st).2 = Except.ok resp' ∧
      resp'.extensions "SQL" = none ∧ resp'.extensions "DurationSQL" = none := by
  refine ⟨resp, ?_, hsql, hdur⟩
  unfold runTraced
  simp only [hh]
  simp [qlNextID, runProducer, storeEvents, bufPop, bufPush]

/-- Witness for C10 on a fresh logger with an event-free handler. -/
theorem c10_empty_session_no_sql_fields_witness :
    ((∀ c : Ctx, (fun _ : Ctx => (([] : List SqlQuery),
          Except.ok (ε := Unit) (Response.mk emptyExt))) c
        = ([], Except.ok (Response.mk emptyExt)))
    ∧ (Response.mk emptyExt).extensions "SQL" = none
    ∧ (Response.mk emptyExt).extensions "DurationSQL" = none)
  ∧ ∃ resp',
      (runTraced true
        (fun _ : Ctx => (([] : List SqlQuery),
          Except.ok (ε := Unit) (Response.mk emptyExt)))
        (Ctx.mk 0) newSqlQueryLogger).2 = Except.ok resp'
      ∧ resp'.extensions "SQL" = none
      ∧ resp'.extensions "DurationSQL" = none :=
  ⟨⟨fun _ => rfl, rfl, rfl⟩,
    c10_empty_session_no_sql_fields true
      (fun _ : Ctx => (([] : List SqlQuery),
        Except.ok (ε := Unit) (Response.mk emptyExt)))
      (Ctx.mk 0) newSqlQueryLogger (Response.mk emptyExt)
      (fun _ => rfl) rfl rfl⟩

end ZenrpcMiddleware
